import Mathlib

/-!
Verification development for the MCPH crate server (MCP API).

The TypeScript sources are shallowly embedded: JavaScript strings become
Lean `String`s, byte buffers become `List Nat` (one `Nat` per byte,
always < 256 where produced by the UTF-8 encoder), Firestore documents
become records with `Option` fields (the collection is schemaless and the
two record shapes that are written to it populate different fields),
the Firestore collection and the GCS bucket become association lists
keyed by document id / object path, and `async` functions that can reject
become `Except String` values.  External collaborators (zlib, the JSON
re-serializer, the Vertex AI embedding provider, GCS URL signing) are
passed in explicitly as functions so that theorems quantify over their
behaviour; where a concrete instance is needed it is defined below with a
doc comment explaining the modelling.
-/

set_option linter.unusedVariables false

namespace MCPH

/-! ## JavaScript string primitives used by the sources -/

/-- Index of the last "." in the character list, scanning left to right and
remembering the most recent hit, as `String.prototype.lastIndexOf` does. -/
def lastDotIndexAux : List Char → Option Nat → Nat → Option Nat
  | [], acc, _ => acc
  | c :: cs, acc, i => lastDotIndexAux cs (if c = '.' then some i else acc) (i + 1)

/-- JavaScript `fileName.lastIndexOf(".")`: index of the last dot, `-1` when absent. -/
def jsLastIndexOfDot (s : String) : Int :=
  match lastDotIndexAux s.data none 0 with
  | some i => (i : Int)
  | none => -1

/-- JavaScript `s.substring(i)`; a negative index is clamped to `0`. -/
def jsSubstringFrom (s : String) (i : Int) : String :=
  String.mk (s.data.drop i.toNat)

/-- JavaScript `s.toLowerCase()`, modelled per character (ASCII-faithful;
every table key involved in the claims is ASCII). -/
def jsToLowerCase (s : String) : String :=
  String.mk (s.data.map Char.toLower)

/-- JavaScript `s.startsWith(p)`. -/
def jsStartsWith (s p : String) : Bool :=
  p.data.isPrefixOf s.data

/-- Containment of one character list inside another (helper for
`String.prototype.includes`). -/
def charsContain (sub : List Char) : List Char → Bool
  | [] => sub.isPrefixOf []
  | c :: cs => sub.isPrefixOf (c :: cs) || charsContain sub cs

/-- JavaScript `s.includes(sub)`: substring containment. -/
def jsIncludes (s sub : String) : Bool :=
  charsContain sub.data s.data

/-- JavaScript `s.trim()`: strip leading and trailing whitespace (modelled
over the ASCII whitespace characters). -/
def jsTrim (s : String) : String :=
  String.mk (((s.data.dropWhile Char.isWhitespace).reverse.dropWhile Char.isWhitespace).reverse)

/-- JavaScript string truthiness for an optional string: `undefined` and `""`
are falsy. -/
def jsTruthyStr : Option String → Bool
  | some s => s ≠ ""
  | none => false

/-- JavaScript `a || b` on an optional string with a string default:
`undefined` and `""` both fall through to the default. -/
def jsOrStr (o : Option String) (d : String) : String :=
  match o with
  | some s => if s = "" then d else s
  | none => d

/-- JavaScript `a || b` on an optional number with an integer default:
`undefined` and `0` both fall through to the default. -/
def jsOrInt (o : Option Int) (d : Int) : Int :=
  match o with
  | some x => if x = 0 then d else x
  | none => d

/-- UTF-8 encoding of one character (standard 1- to 4-byte forms), the model
of Node `Buffer.from(s, "utf8")` taken one character at a time. -/
def utf8EncodeChar (c : Char) : List Nat :=
  let n := c.toNat
  if n < 128 then [n]
  else if n < 2048 then [192 + n / 64, 128 + n % 64]
  else if n < 65536 then [224 + n / 4096, 128 + n / 64 % 64, 128 + n % 64]
  else [240 + n / 262144, 128 + n / 4096 % 64, 128 + n / 64 % 64, 128 + n % 64]

/-- Node `Buffer.from(s, "utf8")` as a byte list. -/
def utf8Bytes (s : String) : List Nat :=
  s.data.flatMap utf8EncodeChar

/-- Bytes that `encodeURIComponent` leaves unescaped
(alphanumerics and - _ . ! ~ * apostrophe ( ) ). -/
def uriUnreservedByte (b : Nat) : Bool :=
  (65 ≤ b && b ≤ 90) || (97 ≤ b && b ≤ 122) || (48 ≤ b && b ≤ 57) ||
    b = 45 || b = 95 || b = 46 || b = 33 || b = 126 || b = 42 || b = 39 ||
    b = 40 || b = 41

/-- Upper-case hexadecimal digit for a value below 16. -/
def hexDigit (n : Nat) : Char :=
  if n < 10 then Char.ofNat (48 + n) else Char.ofNat (55 + n)

/-- JavaScript `encodeURIComponent`: percent-encodes every UTF-8 byte outside
the unreserved set. -/
def encodeURIComponent (s : String) : String :=
  String.mk ((utf8Bytes s).flatMap fun b =>
    if uriUnreservedByte b then [Char.ofNat b]
    else ['%', hexDigit (b / 16), hexDigit (b % 16)])

/-! ## Content classifier (storageService: getDefaultCategoryForFile) -/

inductive CrateCategory where
  | image
  | code
  | markdown
  | json
  | data
  | binary
  | todolist
  | diagram
deriving DecidableEq

/-- String value of the TypeScript enum member (the enum values are the
lower-case words, so `category.toLowerCase()` is the identity on them). -/
def CrateCategory.toStr : CrateCategory → String
  | .image => "image"
  | .code => "code"
  | .markdown => "markdown"
  | .json => "json"
  | .data => "data"
  | .binary => "binary"
  | .todolist => "todolist"
  | .diagram => "diagram"

def MIME_TYPE_TO_CATEGORY : List (String × CrateCategory) :=
  [("image/png", .image),
   ("image/jpeg", .image),
   ("image/gif", .image),
   ("image/webp", .image),
   ("image/svg+xml", .image),
   ("text/markdown", .markdown),
   ("text/x-markdown", .markdown),
   ("application/json", .json),
   ("text/csv", .data),
   ("text/plain", .code),
   ("application/javascript", .code),
   ("text/javascript", .code),
   ("text/html", .code),
   ("text/css", .code)]

def EXTENSION_TO_CATEGORY : List (String × CrateCategory) :=
  [(".png", .image),
   (".jpg", .image),
   (".jpeg", .image),
   (".gif", .image),
   (".webp", .image),
   (".svg", .image),
   (".md", .markdown),
   (".markdown", .markdown),
   (".json", .json),
   (".csv", .data),
   (".js", .code),
   (".ts", .code),
   (".html", .code),
   (".css", .code),
   (".py", .code),
   (".java", .code),
   (".xml", .code),
   (".txt", .code),
   (".log", .code),
   (".todolist", .todolist),
   (".mmd", .diagram),
   (".diagram", .diagram)]

/-- Plain-record lookup in one of the category tables (the TypeScript objects
are used as string-keyed maps). -/
def tableLookup (t : List (String × CrateCategory)) (k : String) : Option CrateCategory :=
  (t.find? (fun p => p.1 == k)).map (·.2)

/-- The file-name extension expression of `getDefaultCategoryForFile`:
`fileName.substring(fileName.lastIndexOf(".")).toLowerCase()`.  With no dot
present `lastIndexOf` gives `-1` and `substring` clamps it to `0`, so the
whole (lower-cased) file name is produced. -/
def fileExtensionExpr (fileName : String) : String :=
  jsToLowerCase (jsSubstringFrom fileName (jsLastIndexOfDot fileName))

/-- storageService `getDefaultCategoryForFile`: MIME table first, then the
extension table, then `binary`. -/
def getDefaultCategoryForFile (fileName mimeType : String) : CrateCategory :=
  match (if mimeType ≠ "" then tableLookup MIME_TYPE_TO_CATEGORY mimeType else none) with
  | some c => c
  | none =>
    let extension := fileExtensionExpr fileName
    match (if extension ≠ "" then tableLookup EXTENSION_TO_CATEGORY extension else none) with
    | some c => c
    | none => .binary

/-- The category assignment of `uploadCrate`:
`crateData.category || getDefaultCategoryForFile(fileName, contentType)`
(the enum values are non-empty strings, hence truthy). -/
def classify (fileName mimeType : String) (explicitCategory : Option CrateCategory) :
    CrateCategory :=
  match explicitCategory with
  | some c => c
  | none => getDefaultCategoryForFile fileName mimeType

/-! ## Compression policy (lib/compressionUtils.ts) -/

def COMPRESSIBLE_CONTENT_TYPES : List String :=
  ["text/plain",
   "text/markdown",
   "text/html",
   "text/css",
   "text/javascript",
   "text/csv",
   "text/xml",
   "application/json",
   "application/ld+json",
   "application/xml",
   "application/javascript",
   "application/typescript",
   "application/x-yaml",
   "application/yaml",
   "application/vnd.openxmlformats-officedocument.wordprocessingml.document",
   "application/vnd.openxmlformats-officedocument.spreadsheetml.sheet",
   "application/vnd.openxmlformats-officedocument.presentationml.presentation",
   "application/msword",
   "application/vnd.ms-excel",
   "application/vnd.ms-powerpoint",
   "application/pdf",
   "application/zip",
   "image/svg+xml",
   "application/xhtml+xml",
   "application/rtf"]

def COMPRESSIBLE_EXTENSIONS : List String :=
  [".txt", ".md", ".markdown", ".html", ".htm", ".css", ".js", ".json", ".csv",
   ".xml", ".ts", ".tsx", ".jsx", ".yaml", ".yml", ".docx", ".xlsx", ".pptx",
   ".doc", ".xls", ".ppt", ".pdf", ".rtf", ".svg", ".xhtml"]

/-- The extension expression of `shouldCompress`:
`fileName.toLowerCase().substring(fileName.lastIndexOf("."))` — the index is
taken on the original string and the substring on the lower-cased one
(per-character lowering preserves positions and dots). -/
def shouldCompressExt (fileName : String) : String :=
  jsSubstringFrom (jsToLowerCase fileName) (jsLastIndexOfDot fileName)

/-- compressionUtils `shouldCompress`: a content-type substring match against
the compressible-type list, OR-ed with an extension-list membership test. -/
def shouldCompress (contentType fileName : String) : Bool :=
  if COMPRESSIBLE_CONTENT_TYPES.any (fun t => jsIncludes contentType t) then true
  else COMPRESSIBLE_EXTENSIONS.contains (shouldCompressExt fileName)

structure CompressionMetadata where
  originalSize : Nat
  compressedSize : Nat
  compressionRatio : ℚ
  compressionMethod : String
deriving DecidableEq

/-- compressionUtils `compressBuffer`, parameterised by the zlib gzip
implementation (`none` models a rejected `gzipAsync` promise, which the
callers catch).  The floating-point ratio arithmetic is modelled exactly
over the rationals. -/
def compressBuffer (gzipFn : List Nat → Option (List Nat)) (buffer : List Nat) :
    Option (List Nat × CompressionMetadata) :=
  let originalSize := buffer.length
  (gzipFn buffer).map fun compressedBuffer =>
    let compressedSize : Nat := compressedBuffer.length
    let compressionRatio : ℚ :=
      if originalSize > 0 then (1 - (compressedSize : ℚ) / (originalSize : ℚ)) * 100 else 0
    (compressedBuffer,
      { originalSize := originalSize
        compressedSize := compressedSize
        compressionRatio := compressionRatio
        compressionMethod := "gzip" })

/-! ## TTL policy (config/constants.ts, DATA_TTL) -/

namespace DATA_TTL

def OPTIONS : List Int := [1, 7, 30]

def DEFAULT_DAYS : Int := 30

def MAX_DAYS : Int := 30

/-- The day-selection expression of `getExpirationTimestamp`:
`ttlDays && OPTIONS.includes(ttlDays) && ttlDays <= MAX_DAYS ? ttlDays : DEFAULT_DAYS`
(`ttlDays` equal to `0` is falsy). -/
def normalizeDays (ttlDays : Option Int) : Int :=
  match ttlDays with
  | some d => if d ≠ 0 ∧ OPTIONS.contains d ∧ d ≤ MAX_DAYS then d else DEFAULT_DAYS
  | none => DEFAULT_DAYS

def getExpirationTimestamp (baseTimestamp : Int) (ttlDays : Option Int) : Int :=
  baseTimestamp + normalizeDays ttlDays * (24 * 60 * 60 * 1000)

end DATA_TTL

/-! ## Persistent state: Firestore crate documents and GCS blobs -/

/-- The `shared` sub-record.  `sharedWith`, `passwordProtected` and
`password` are optional because the document shapes written by the several
writers populate them differently. -/
structure CrateSharingRec where
  public : Bool
  sharedWith : Option (List String)
  passwordProtected : Option Bool
  password : Option String
deriving DecidableEq

/-- One document of the `crates` Firestore collection.  The collection is
schemaless: the pre-signed placeholder records (shaped like the service's
`FileMetadata`) and the complete `Crate` records populate different subsets
of these fields, so every field either writer may omit is an `Option`.
Timestamps are milliseconds since the epoch. -/
structure CrateDoc where
  id : String
  title : String
  description : Option String
  fileName : Option String
  ownerId : Option String
  createdAt : Option Int
  ttlDays : Option Int
  mimeType : Option String
  contentType : Option String
  category : Option CrateCategory
  gcsPath : String
  shared : Option CrateSharingRec
  tags : Option (List String)
  searchField : Option String
  size : Nat
  downloadCount : Nat
  metadata : Option (List (String × String))
  embedding : Option (List Int)
  expiresAt : Option Int
  fileType : Option String
  compressed : Option Bool
  originalSize : Option Nat
  compressionMethod : Option String
  compressionRatio : Option ℚ
deriving DecidableEq

/-- One object of the GCS bucket: its bytes, the declared content type and
the custom-metadata `compressed` marker (`metadata.compressed === "true"`),
which `getCrateContent` consults. -/
structure BlobObject where
  content : List Nat
  contentType : String
  metaCompressed : Bool
deriving DecidableEq

/-- The externally persisted state one request observes: the crate
collection and the bucket, plus the uuid source (`nextUuid` with the ghost
list `issuedIds` of every id handed out so far), the clock, and the event
log written by `logEvent`. -/
structure ServerState where
  crates : List (String × CrateDoc)
  blobs : List (String × BlobObject)
  nextUuid : Nat
  issuedIds : List String
  now : Int
  events : List (String × String)
deriving DecidableEq

/-- Set a key in an association list, keeping the position of an existing
key (this is both a document `set` and JavaScript `Map.prototype.set`). -/
def assocSet {α : Type} (l : List (String × α)) (k : String) (v : α) :
    List (String × α) :=
  match l with
  | [] => [(k, v)]
  | (k', v') :: rest => if k' == k then (k, v) :: rest else (k', v') :: assocSet rest k v

def assocGet {α : Type} (l : List (String × α)) (k : String) : Option α :=
  (l.find? (fun p => p.1 == k)).map (·.2)

def assocRemove {α : Type} (l : List (String × α)) (k : String) :
    List (String × α) :=
  l.filter (fun p => !(p.1 == k))

/-- The `uuidv4` generator is modelled as an injective fresh-name source
driven by `nextUuid`; collision-freedom of v4 uuids is the operating
assumption of the code.  The n-th name has length `n + 1`, which is what
the freshness proofs use. -/
def mkUuid (n : Nat) : String :=
  String.mk ('u' :: List.replicate n 'x')

/-- Every id issued so far is shorter than the next name to be issued;
this is the invariant that makes `mkUuid st.nextUuid` fresh. -/
def uuidInvariant (st : ServerState) : Prop :=
  ∀ id ∈ st.issuedIds, id.length < st.nextUuid + 1

instance (st : ServerState) : Decidable (uuidInvariant st) := by
  unfold uuidInvariant
  infer_instance

/-- External collaborators, passed explicitly: zlib gzip/gunzip (`none` is a
rejected promise), the `JSON.parse` + `JSON.stringify(·, null, 2)`
re-serializer (`none` is a parse error), and the Vertex AI embedding
provider (`none` is a rejected request). -/
structure ExternalDeps where
  gzip : List Nat → Option (List Nat)
  gunzip : List Nat → Option (List Nat)
  jsonReformat : List Nat → Option (List Nat)
  embedText : String → Option (List Int)

/-! ## firebaseService operations -/

def getCrateMetadata (st : ServerState) (id : String) : Option CrateDoc :=
  assocGet st.crates id

def saveCrateMetadata (st : ServerState) (doc : CrateDoc) : ServerState :=
  { st with crates := assocSet st.crates doc.id doc }

/-- `incrementCrateDownloadCount`: a no-op when the document is missing,
otherwise an atomic `downloadCount + 1`. -/
def incrementCrateDownloadCount (st : ServerState) (id : String) : ServerState :=
  match assocGet st.crates id with
  | none => st
  | some doc =>
    { st with crates := assocSet st.crates id { doc with downloadCount := doc.downloadCount + 1 } }

def deleteCrateMetadata (st : ServerState) (id : String) : ServerState :=
  { st with crates := assocRemove st.crates id }

def logEvent (st : ServerState) (kind id : String) : ServerState :=
  { st with events := (kind, id) :: st.events }

/-! ## storageService operations -/

/-- The `cratesFolder` object-path root exported by the GCS client module
(that module is configuration plumbing; only the constant's shape matters). -/
def cratesFolder : String := "crates/"

/-- Model of a GCS v4 signed write URL for a path (the signer is an external
collaborator; the URL it returns locates the path and is never empty). -/
def signedUploadUrl (gcsPath : String) : String :=
  "https://storage.googleapis.com/upload/" ++ gcsPath

/-- Model of a GCS v4 signed read URL for a path. -/
def signedDownloadUrl (gcsPath : String) : String :=
  "https://storage.googleapis.com/download/" ++ gcsPath

structure UploadUrlResult where
  url : String
  fileId : String
  gcsPath : String
deriving DecidableEq

/-- storageService `generateUploadUrl`: allocate a fresh id, build the
object path, sign a write URL, and persist the size-0 placeholder metadata
record (shaped like `FileMetadata`: no ownerId, no category, no ttlDays). -/
def generateUploadUrl (st : ServerState) (fileName contentType : String)
    (ttlDays : Option Int) : UploadUrlResult × ServerState :=
  let fileId := mkUuid st.nextUuid
  let gcsPath := cratesFolder ++ fileId ++ "/" ++ encodeURIComponent fileName
  let url := signedUploadUrl gcsPath
  let uploadedAt := st.now
  let expiresAtTimestamp := DATA_TTL.getExpirationTimestamp uploadedAt ttlDays
  let fileDoc : CrateDoc :=
    { id := fileId
      title := fileName
      description := none
      fileName := some fileName
      ownerId := none
      createdAt := some uploadedAt
      ttlDays := none
      mimeType := none
      contentType := some contentType
      category := none
      gcsPath := gcsPath
      shared := none
      tags := none
      searchField := none
      size := 0
      downloadCount := 0
      metadata := none
      embedding := none
      expiresAt := some expiresAtTimestamp
      fileType := none
      compressed := none
      originalSize := none
      compressionMethod := none
      compressionRatio := none }
  let st := { st with nextUuid := st.nextUuid + 1, issuedIds := fileId :: st.issuedIds }
  let st := saveCrateMetadata st fileDoc
  (⟨url, fileId, gcsPath⟩, st)

/-- storageService `getSignedDownloadUrl` (crate flavour): look up the
metadata, require the object to exist, sign a read URL, increment the
download counter and log the event.  Every internal failure surfaces as the
wrapped "Failed to generate download link" rejection. -/
def getSignedDownloadUrl (st : ServerState) (fileId : String)
    (fileName : Option String) (expiresInMinutes : Int) :
    Except String (String × ServerState) :=
  match getCrateMetadata st fileId with
  | none => .error "Failed to generate download link"
  | some metadata =>
    match assocGet st.blobs metadata.gcsPath with
    | none => .error "Failed to generate download link"
    | some _ =>
      let url := signedDownloadUrl metadata.gcsPath
      let st := incrementCrateDownloadCount st fileId
      let st := logEvent st "file_download" fileId
      .ok (url, st)

/-- storageService `getCrateContent`: download the object, gunzip when the
object metadata marks it compressed (falling back to the raw bytes on a
decompression failure), re-serialize JSON content (falling back on a parse
error), then increment the download counter.  Every non-fallback failure
surfaces as the wrapped "Failed to get crate content" rejection. -/
def getCrateContent (deps : ExternalDeps) (st : ServerState) (crateId : String) :
    Except String ((List Nat × CrateDoc) × ServerState) :=
  match getCrateMetadata st crateId with
  | none => .error "Failed to get crate content"
  | some crate =>
    match assocGet st.blobs crate.gcsPath with
    | none => .error "Failed to get crate content"
    | some blob =>
      let content := blob.content
      let finalContent :=
        if blob.metaCompressed then
          match deps.gunzip content with
          | some d => d
          | none => content
        else content
      let finalContent :=
        if crate.mimeType == some "application/json" || crate.category == some CrateCategory.json then
          match deps.jsonReformat finalContent with
          | some f => f
          | none => finalContent
        else finalContent
      let st := incrementCrateDownloadCount st crateId
      .ok ((finalContent, crate), st)

/-- The space-joined, filtered, lower-cased search text
`[a, b, ...].filter(Boolean).join(" ").toLowerCase()`. -/
def searchJoin (parts : List String) : String :=
  jsToLowerCase (String.intercalate " " (parts.filter (fun s => s ≠ "")))

/-- `Object.entries(metadata).map(([k, v]) => k + " " + v).join(" ")`. -/
def metaEntriesString (metadata : Option (List (String × String))) : String :=
  match metadata with
  | some m => String.intercalate " " (m.map (fun kv => kv.1 ++ " " ++ kv.2))
  | none => ""

/-- storageService `uploadFile` (server-side direct upload, `FileMetadata`
schema): optional compression (a gzip failure keeps the original buffer and
drops the compression metadata), GCS write, search-text synthesis, and the
persisted record carrying the compression accounting fields. -/
def uploadFile (deps : ExternalDeps) (st : ServerState) (fileBuffer : List Nat)
    (fileName contentType : String) (ttlDays : Option Int)
    (title description fileType : Option String)
    (metadata : Option (List (String × String))) : CrateDoc × ServerState :=
  let fileId := mkUuid st.nextUuid
  let st := { st with nextUuid := st.nextUuid + 1, issuedIds := fileId :: st.issuedIds }
  let gcsPath := cratesFolder ++ fileId ++ "/" ++ encodeURIComponent fileName
  let compressionStep :=
    if shouldCompress contentType fileName then
      match compressBuffer deps.gzip fileBuffer with
      | some (out, meta) => (out, some meta)
      | none => (fileBuffer, none)
    else (fileBuffer, none)
  let bufferToSave := compressionStep.1
  let compressionMetadata := compressionStep.2
  let blobObj : BlobObject :=
    { content := bufferToSave
      contentType := contentType
      metaCompressed := compressionMetadata.isSome }
  let st := { st with blobs := assocSet st.blobs gcsPath blobObj }
  let uploadedAt := st.now
  let expiresAtTimestamp := DATA_TTL.getExpirationTimestamp uploadedAt ttlDays
  let metaString := metaEntriesString metadata
  let searchText := searchJoin [jsOrStr title "", fileName, jsOrStr description "", metaString]
  let fileData : CrateDoc :=
    { id := fileId
      title := jsOrStr title fileName
      description := description
      fileName := some fileName
      ownerId := none
      createdAt := some uploadedAt
      ttlDays := none
      mimeType := none
      contentType := some contentType
      category := none
      gcsPath := gcsPath
      shared := none
      tags := none
      searchField := some searchText
      size := bufferToSave.length
      downloadCount := 0
      metadata := metadata
      embedding := none
      expiresAt := some expiresAtTimestamp
      fileType := some (jsOrStr fileType "file")
      compressed := compressionMetadata.map (fun _ => true)
      originalSize := compressionMetadata.map (·.originalSize)
      compressionMethod := compressionMetadata.map (·.compressionMethod)
      compressionRatio := compressionMetadata.map (·.compressionRatio) }
  let st := saveCrateMetadata st fileData
  (fileData, st)

/-- The partial crate assembled by the `crates_upload` tool before calling
`uploadCrate`. -/
structure PartialCrate where
  id : Option String
  title : Option String
  description : Option String
  ttlDays : Option Int
  ownerId : Option String
  shared : Option CrateSharingRec
  tags : Option (List String)
  metadata : Option (List (String × String))
  category : Option CrateCategory
deriving DecidableEq

/-- storageService `uploadCrate` (inline upload, unified `Crate` schema):
JSON content is validated by re-serialization (a parse failure aborts),
compression is best-effort, the bytes are written to GCS, the search field
is synthesized, and the complete crate record is persisted.  Every abort
surfaces as the wrapped "Failed to upload crate" rejection.  Note the
persisted record keeps `crateData.ttlDays || DEFAULT_DAYS` verbatim and
does not carry the compression accounting fields. -/
def uploadCrate (deps : ExternalDeps) (st : ServerState) (fileBuffer : List Nat)
    (fileName contentType : String) (crateData : PartialCrate) :
    Except String (CrateDoc × ServerState) :=
  let idStep : String × ServerState :=
    match crateData.id with
    | some i => (i, st)
    | none =>
      let i := mkUuid st.nextUuid
      (i, { st with nextUuid := st.nextUuid + 1, issuedIds := i :: st.issuedIds })
  let crateId := idStep.1
  let st := idStep.2
  let gcsPath := cratesFolder ++ crateId ++ "/" ++ encodeURIComponent fileName
  let jsonStep : Option (List Nat) :=
    if contentType = "application/json" then deps.jsonReformat fileBuffer
    else some fileBuffer
  match jsonStep with
  | none => .error "Failed to upload crate"
  | some buffer0 =>
    let compressionStep :=
      if shouldCompress contentType fileName then
        match compressBuffer deps.gzip buffer0 with
        | some (out, meta) => (out, some meta)
        | none => (buffer0, none)
      else (buffer0, none)
    let bufferToSave := compressionStep.1
    let compressionMetadata := compressionStep.2
    let blobObj : BlobObject :=
      { content := bufferToSave
        contentType := contentType
        metaCompressed := compressionMetadata.isSome }
    let st := { st with blobs := assocSet st.blobs gcsPath blobObj }
    let metaString := metaEntriesString crateData.metadata
    let tagsString := match crateData.tags with
      | some l => String.intercalate " " l
      | none => ""
    let searchField := searchJoin
      [jsOrStr crateData.title fileName, jsOrStr crateData.description "", tagsString, metaString]
    let sharing : CrateSharingRec :=
      match crateData.shared with
      | some s => s
      | none => { public := false, sharedWith := none, passwordProtected := none, password := none }
    let completeCrate : CrateDoc :=
      { id := crateId
        title := jsOrStr crateData.title fileName
        description := crateData.description
        fileName := none
        ownerId := some (jsOrStr crateData.ownerId "anonymous")
        createdAt := some st.now
        ttlDays := some (jsOrInt crateData.ttlDays DATA_TTL.DEFAULT_DAYS)
        mimeType := some contentType
        contentType := none
        category := some (classify fileName contentType crateData.category)
        gcsPath := gcsPath
        shared := some sharing
        tags := crateData.tags
        searchField := some searchField
        size := bufferToSave.length
        downloadCount := 0
        metadata := crateData.metadata
        embedding := none
        expiresAt := none
        fileType := none
        compressed := none
        originalSize := none
        compressionMethod := none
        compressionRatio := none }
    let st := saveCrateMetadata st completeCrate
    let st := logEvent st "crate_upload" crateId
    .ok (completeCrate, st)

/-- Modelled from the spec: `deleteCrate` is imported by the tool layer from
the storage service but its definition is not among the provided sources.
Per the spec (section 4.4, Delete): it "removes blob then metadata; if the
blob is already missing, metadata is still removed and the operation is
reported as successful"; a missing metadata record reports failure. -/
def deleteCrate (st : ServerState) (id : String) : Bool × ServerState :=
  match getCrateMetadata st id with
  | none => (false, st)
  | some crate =>
    let st := { st with blobs := assocRemove st.blobs crate.gcsPath }
    let st := deleteCrateMetadata st id
    (true, logEvent st "file_delete" id)

/-! ## Tool handlers (index.ts) -/

/-- An apostrophe, kept out of string literals. -/
def apos : String := String.mk [Char.ofNat 39]

/-- What `crates_get` hands back: the instruction text for link-only
categories, inline image bytes (the handler base64-encodes them; base64 is
a bijection so the bytes are carried directly), the image-fallback markdown
link, inline text bytes (UTF-8 decoded by the handler), or the
resource-reference fallback. -/
inductive GetOutcome where
  | linkInstructions (text : String)
  | inlineImage (data : List Nat) (mimeType : String)
  | imageFallbackLink (text : String)
  | inlineText (data : List Nat)
  | resourceFallback (uri url : String)
deriving DecidableEq

/-- True exactly on the two outcomes that inline the crate's bytes. -/
def isInlineOutcome : GetOutcome → Bool
  | .inlineImage _ _ => true
  | .inlineText _ => true
  | _ => false

/-- The instruction text returned for BINARY and DATA crates. -/
def binaryDataMessage (meta : CrateDoc) (cat : CrateCategory) : String :=
  "This crate contains " ++ cat.toStr ++ " content. Please use the " ++ apos ++
    "crates_get_by_presigned_url" ++ apos ++
    " tool to get a download link for this content.\n\nExample: \x7b \"id\": \"" ++
    meta.id ++ "\" \x7d"

/-- The expiry clamp `Math.max(1, Math.min(86400, expiresInSeconds))` with
default 300. -/
def clampExpires (expiresInSeconds : Option Int) : Int :=
  match expiresInSeconds with
  | some e => max 1 (min 86400 e)
  | none => 300

/-- `Math.ceil(exp / 60)` for the positive clamped expiry. -/
def ceilDiv60 (e : Int) : Int := (e + 59) / 60

/-- The `crates_get` tool: not-found check, the hard link-only policy for
BINARY and DATA (returns instructions before any storage access), then a
signed download URL, then the category-appropriate inline render with a
fallback to the URL when fetching the bytes fails. -/
def crates_get (deps : ExternalDeps) (st : ServerState) (id : String)
    (expiresInSeconds : Option Int) : Except String (GetOutcome × ServerState) :=
  match getCrateMetadata st id with
  | none => .error "Crate not found"
  | some meta =>
    if meta.category == some CrateCategory.binary || meta.category == some CrateCategory.data then
      .ok (.linkInstructions (binaryDataMessage meta
        (match meta.category with | some c => c | none => CrateCategory.binary)), st)
    else
      let exp := clampExpires expiresInSeconds
      match getSignedDownloadUrl st meta.id (some meta.title) (ceilDiv60 exp) with
      | .error e => .error e
      | .ok (url, st) =>
        if meta.category == some CrateCategory.image then
          match getCrateContent deps st meta.id with
          | .ok ((buf, _), st) =>
            .ok (.inlineImage buf (jsOrStr meta.mimeType "image/png"), st)
          | .error _ =>
            .ok (.imageFallbackLink ("![" ++ jsOrStr (some meta.title) "Image" ++ "](" ++ url ++ ")"), st)
        else
          match getCrateContent deps st meta.id with
          | .ok ((buf, _), st) => .ok (.inlineText buf, st)
          | .error _ => .ok (.resourceFallback ("crate://" ++ meta.id) url, st)

/-- Lexicographic strictly-less on character lists by code point (UTF-8 byte
order, which Firestore uses, coincides with code-point order). -/
def charsLt : List Char → List Char → Bool
  | [], [] => false
  | [], _ :: _ => true
  | _ :: _, [] => false
  | a :: as, b :: bs =>
    if a.toNat < b.toNat then true
    else if b.toNat < a.toNat then false
    else charsLt as bs

/-- Non-strict string order used for the Firestore range conditions. -/
def strLe (a b : String) : Bool :=
  a == b || charsLt a.data b.data

def dotProduct (a b : List Int) : Int :=
  (List.zipWith (· * ·) a b).sum

/-- Insert into a list kept sorted by descending score (stable among equal
scores). -/
def insertDesc (score : String × CrateDoc → Int) (x : String × CrateDoc) :
    List (String × CrateDoc) → List (String × CrateDoc)
  | [] => [x]
  | y :: ys => if score x > score y then x :: y :: ys else y :: insertDesc score x ys

def sortDescBy (score : String × CrateDoc → Int) :
    List (String × CrateDoc) → List (String × CrateDoc)
  | [] => []
  | x :: xs => insertDesc score x (sortDescBy score xs)

/-- Firestore `findNearest("embedding", emb, limit, DOT_PRODUCT)`: the k
documents carrying an embedding field that score highest by dot product. -/
def findNearest (crates : List (String × CrateDoc)) (emb : List Int) (k : Nat) :
    List (String × CrateDoc) :=
  let cands := crates.filter (fun p => p.2.embedding.isSome)
  (sortDescBy (fun p => dotProduct (p.2.embedding.getD []) emb) cands).take k

/-- The classical prefix-range predicate
the lower-cased query as range lower bound and the query with the
large-codepoint sentinel U+F8FF appended as upper bound on `searchField`
(false for documents without the field). -/
def classicalMatch (textQuery : String) (doc : CrateDoc) : Bool :=
  match doc.searchField with
  | some sf => strLe textQuery sf && strLe sf (textQuery ++ "\uF8FF")
  | none => false

/-- The `crates_search` tool: the embedding request comes first and is not
guarded, so its failure rejects the whole call; otherwise the vector top-5
and the classical prefix-range top-5 are merged in a `Map` keyed by id
(classical results overwrite on collision). -/
def crates_search (deps : ExternalDeps) (st : ServerState) (query : String) :
    Except String (List (String × CrateDoc) × ServerState) :=
  match deps.embedText query with
  | none => .error "Failed to generate embedding"
  | some embedding =>
    let topK : Nat := 5
    let vectorCrates := findNearest st.crates embedding topK
    let textQuery := jsToLowerCase query
    let classicalCrates := (st.crates.filter (fun p => classicalMatch textQuery p.2)).take topK
    let merged := (vectorCrates ++ classicalCrates).foldl (fun m p => assocSet m p.1 p.2) []
    .ok (merged, st)

/-! ### crates_upload -/

structure UploadArgs where
  fileName : String
  contentType : String
  data : Option String
  ttlDays : Option Int
  title : Option String
  description : Option String
  category : Option CrateCategory
  tags : Option (List String)
  metadata : Option (List (String × String))
  isPublic : Bool
  password : Option String
deriving DecidableEq

inductive UploadOutcome where
  | presigned (uploadUrl crateId gcsPath : String)
  | validationError (text : String)
  | completed (crate : CrateDoc)
deriving DecidableEq

def UploadOutcome.isPresigned : UploadOutcome → Bool
  | .presigned _ _ _ => true
  | _ => false

def UploadOutcome.isValidationError : UploadOutcome → Bool
  | .validationError _ => true
  | _ => false

/-- The extension chosen from an explicit category when the file name must
be synthesized. -/
def extensionForCategory : CrateCategory → String
  | .json => ".json"
  | .image => ".png"
  | .markdown => ".md"
  | .code => ".txt"
  | .binary => ".bin"
  | .data => ".dat"
  | .todolist => ".todolist"
  | .diagram => ".mmd"

/-- The content-type to extension chain of `crates_upload` (an empty content
type falls through every test to ".dat", matching the falsy branch). -/
def extensionForContentType (ct : String) : String :=
  if ct = "application/json" then ".json"
  else if ct = "image/jpeg" ∨ ct = "image/jpg" then ".jpg"
  else if ct = "image/png" then ".png"
  else if ct = "image/gif" then ".gif"
  else if ct = "image/webp" then ".webp"
  else if ct = "image/svg+xml" then ".svg"
  else if ct = "text/markdown" then ".md"
  else if ct = "text/csv" then ".csv"
  else if jsIncludes ct "javascript" then ".js"
  else if jsIncludes ct "typescript" then ".ts"
  else if jsIncludes ct "python" then ".py"
  else if jsStartsWith ct "text/" then ".txt"
  else if jsStartsWith ct "application/octet-stream" ∨ jsStartsWith ct "binary/" then ".bin"
  else ".dat"

/-- Characters stripped from a synthesized base name.  The TypeScript regex
class is written with a double-escaped backslash, so it matches a literal
backslash and a literal letter s (not whitespace), besides the listed
separators; the digit 0 comes from the escaped-NUL spelling. -/
def sanitizeSet : List Char :=
  ['/', Char.ofNat 92, '0', '?', '%', '*', ':', '|', Char.ofNat 34, '<', '>', '.', 's']

def sanitizeBaseName (s : String) : String :=
  String.mk (s.data.map (fun c => if sanitizeSet.contains c then '_' else c))

/-- The effective file-name computation of `crates_upload`: a blank name is
synthesized from the (trimmed) title with an extension from the category,
else the content type, else ".dat"; JSON content always gets ".json". -/
def effectiveFileNameOf (fileName contentType : String) (title : Option String)
    (category : Option CrateCategory) : String :=
  if fileName = "" ∨ jsTrim fileName = "" then
    let baseNameSource :=
      match title with
      | some t => if jsTrim t ≠ "" then jsTrim t else "untitled"
      | none => "untitled"
    if contentType = "application/json" then
      sanitizeBaseName baseNameSource ++ ".json"
    else
      let extension :=
        match category with
        | some c => extensionForCategory c
        | none => extensionForContentType contentType
      sanitizeBaseName baseNameSource ++ extension
  else fileName

/-- The `isBigDataType` test of `crates_upload`. -/
def isBigDataType (category : Option CrateCategory) (contentType : String) : Bool :=
  category == some CrateCategory.data || category == some CrateCategory.binary ||
    contentType == "text/csv" || jsStartsWith contentType "application/octet-stream" ||
    jsStartsWith contentType "binary/"

/-- The `crates_upload` tool.  `userId` is `req?.user?.userId`.  Bulk types
without a (truthy) inline payload take the pre-signed path; other types
without a payload are answered with the "Missing data for direct upload"
validation error; otherwise the payload is decoded, an embedding is
attempted (failures swallowed), `uploadCrate` runs, and a produced
embedding is attached to the stored document. -/
def crates_upload (deps : ExternalDeps) (st : ServerState) (userId : Option String)
    (a : UploadArgs) : Except String (UploadOutcome × ServerState) :=
  let effectiveFileName := effectiveFileNameOf a.fileName a.contentType a.title a.category
  let partialCrate : PartialCrate :=
    { id := none
      title := some (jsOrStr a.title effectiveFileName)
      description := a.description
      ttlDays := a.ttlDays
      ownerId := some (jsOrStr userId "anonymous")
      shared := some
        { public := a.isPublic
          sharedWith := none
          passwordProtected := some (jsTruthyStr a.password)
          password := a.password }
      tags := match a.tags with
        | some l => if l.length > 0 then some l else none
        | none => none
      metadata := match a.metadata with
        | some m => if m.length > 0 then some m else none
        | none => none
      category := a.category }
  if isBigDataType a.category a.contentType && !jsTruthyStr a.data then
    let r := generateUploadUrl st effectiveFileName a.contentType a.ttlDays
    .ok (.presigned r.1.url r.1.fileId r.1.gcsPath, r.2)
  else if !jsTruthyStr a.data then
    .ok (.validationError "Missing data for direct upload", st)
  else
    let buffer := utf8Bytes (a.data.getD "")
    let metaString :=
      match a.metadata with
      | some m => String.intercalate " " (m.map (fun kv => kv.1 ++ ": " ++ kv.2))
      | none => ""
    let tagsString := match a.tags with
      | some l => String.intercalate " " l
      | none => ""
    let concatText := String.intercalate " "
      (([jsOrStr a.title "", jsOrStr a.description "", tagsString, metaString].filter (fun s => s ≠ "")))
    let embedding :=
      if (jsTrim concatText).length > 0 then deps.embedText concatText else none
    match uploadCrate deps st buffer effectiveFileName a.contentType partialCrate with
    | .error e => .error e
    | .ok (crate, st) =>
      let st :=
        match embedding with
        | some emb =>
          if crate.id ≠ "" then
            match assocGet st.crates crate.id with
            | some doc => saveCrateMetadata st { doc with embedding := some emb }
            | none => st
          else st
        | none => st
      .ok (.completed crate, st)

/-! ### crates_share, crates_unshare, crates_delete -/

/-- The shared ownership test
`req?.user?.userId && crateData?.ownerId !== req.user.userId`: it only
denies when a (truthy) identity is present and differs from the stored
owner; with no identity it is skipped. -/
def ownershipDenied (userId : Option String) (ownerId : Option String) : Bool :=
  match userId with
  | some uid => uid != "" && ownerId != some uid
  | none => false

structure ShareArgs where
  id : String
  isPublic : Option Bool
  sharedWith : Option (List String)
  passwordProtected : Option Bool
deriving DecidableEq

/-- The computed shareable URL (`NEXT_PUBLIC_BASE_URL` defaulting to
mcph.io). -/
def shareUrlOf (id : String) : String :=
  "https://mcph.io/crate/" ++ id

/-- The `crates_share` tool: not-found check, ownership check, then a
partial update of the sharing sub-record applying only the supplied
fields. -/
def crates_share (st : ServerState) (userId : Option String) (a : ShareArgs) :
    Except String (String × ServerState) :=
  match assocGet st.crates a.id with
  | none => .error "Crate not found"
  | some crateData =>
    if ownershipDenied userId crateData.ownerId then
      .error ("You don" ++ apos ++ "t have permission to share this crate")
    else
      let sh := match crateData.shared with
        | some s => s
        | none => { public := false, sharedWith := none, passwordProtected := none, password := none }
      let sh := match a.isPublic with
        | some b => { sh with public := b }
        | none => sh
      let sh := match a.sharedWith with
        | some l => { sh with sharedWith := some l }
        | none => sh
      let sh := match a.passwordProtected with
        | some b => { sh with passwordProtected := some b }
        | none => sh
      let st := { st with crates := assocSet st.crates a.id { crateData with shared := some sh } }
      .ok (shareUrlOf a.id, st)

/-- The `crates_unshare` tool: not-found check, ownership check, then the
sharing sub-record is reset (public false, empty shared-with, password
protection off; the stored password value is left in place). -/
def crates_unshare (st : ServerState) (userId : Option String) (id : String) :
    Except String (String × ServerState) :=
  match assocGet st.crates id with
  | none => .error "Crate not found"
  | some crateData =>
    if ownershipDenied userId crateData.ownerId then
      .error ("You don" ++ apos ++ "t have permission to unshare this crate")
    else
      let sh := match crateData.shared with
        | some s => s
        | none => { public := false, sharedWith := none, passwordProtected := none, password := none }
      let sh := { sh with
        public := false
        sharedWith := some []
        passwordProtected := some false }
      let st := { st with crates := assocSet st.crates id { crateData with shared := some sh } }
      .ok (id, st)

/-- The `crates_delete` tool: not-found check, ownership check, then the
storage-service delete; a false return is reported as a failure. -/
def crates_delete (st : ServerState) (userId : Option String) (id : String) :
    Except String (String × ServerState) :=
  match getCrateMetadata st id with
  | none => .error "Crate not found"
  | some crate =>
    if ownershipDenied userId crate.ownerId then
      .error ("You don" ++ apos ++ "t have permission to delete this crate")
    else
      match deleteCrate st id with
      | (true, st) => .ok (id, st)
      | (false, _) => .error "Failed to delete crate"

/-- Whether an `Except` result is a success. -/
def exceptOk {α : Type} (e : Except String α) : Bool :=
  match e with
  | .ok _ => true
  | .error _ => false

/-! ## General lemmas about the embedded operations -/

theorem optionsContainsIff (d : Int) :
    (DATA_TTL.OPTIONS.contains d = true) ↔ (d = 1 ∨ d = 7 ∨ d = 30) := by
  simp [DATA_TTL.OPTIONS, List.contains]

theorem normalizeDaysSpecEq (ttl : Option Int) :
    DATA_TTL.normalizeDays ttl =
      (match ttl with
       | some d => if d ∈ ([1, 7, 30] : List Int) ∧ d ≤ 30 then d else 30
       | none => 30) := by
  cases ttl with
  | none => rfl
  | some d =>
    simp only [DATA_TTL.normalizeDays, DATA_TTL.DEFAULT_DAYS, DATA_TTL.MAX_DAYS]
    have hmem : (d ∈ ([1, 7, 30] : List Int)) ↔ (d = 1 ∨ d = 7 ∨ d = 30) := by simp
    by_cases h : d = 1 ∨ d = 7 ∨ d = 30
    · have hne : d ≠ 0 := by rcases h with h | h | h <;> omega
      have hc : DATA_TTL.OPTIONS.contains d = true := (optionsContainsIff d).mpr h
      have hle : d ≤ 30 := by rcases h with h | h | h <;> omega
      rw [if_pos ⟨hne, hc, hle⟩, if_pos ⟨hmem.mpr h, hle⟩]
    · have hc : ¬ (DATA_TTL.OPTIONS.contains d = true) := fun hcc => h ((optionsContainsIff d).mp hcc)
      rw [if_neg (fun hcon => hc hcon.2.1), if_neg (fun hcon => h (hmem.mp hcon.1))]

theorem normalizeDaysMem (ttl : Option Int) :
    DATA_TTL.normalizeDays ttl = 1 ∨ DATA_TTL.normalizeDays ttl = 7 ∨
      DATA_TTL.normalizeDays ttl = 30 := by
  cases ttl with
  | none => right; right; rfl
  | some d =>
    simp only [DATA_TTL.normalizeDays]
    split
    next h => exact (optionsContainsIff d).mp h.2.1
    next => right; right; rfl

theorem lastDotAuxNoDot :
    ∀ (l : List Char) (acc : Option Nat) (i : Nat), '.' ∉ l → lastDotIndexAux l acc i = acc := by
  intro l
  induction l with
  | nil => intro acc i h; rfl
  | cons c cs ih =>
    intro acc i h
    simp only [lastDotIndexAux]
    have hc : ¬ (c = '.') := fun e => h (e ▸ List.mem_cons_self c cs)
    rw [if_neg hc]
    exact ih acc (i + 1) (fun hm => h (List.mem_cons_of_mem c hm))

theorem jsLastIndexOfDotNoDot (s : String) (h : '.' ∉ s.data) : jsLastIndexOfDot s = -1 := by
  unfold jsLastIndexOfDot
  rw [lastDotAuxNoDot s.data none 0 h]

theorem shouldCompressExtNoDot (fileName : String) (h : '.' ∉ fileName.data) :
    shouldCompressExt fileName = jsToLowerCase fileName := by
  unfold shouldCompressExt
  rw [jsLastIndexOfDotNoDot fileName h]
  unfold jsSubstringFrom
  simp only [Int.toNat, List.drop_zero]
  cases hlc : jsToLowerCase fileName with
  | mk l => rfl

theorem ownershipDeniedTrue (uid : String) (ownerId : Option String)
    (h1 : uid ≠ "") (h2 : ownerId ≠ some uid) :
    ownershipDenied (some uid) ownerId = true := by
  simp [ownershipDenied, h1, h2]

theorem assocGet_set_self {α : Type} (l : List (String × α)) (k : String) (v : α) :
    assocGet (assocSet l k v) k = some v := by
  induction l with
  | nil => simp [assocSet, assocGet, List.find?]
  | cons p rest ih =>
    rcases p with ⟨k', v'⟩
    by_cases h : (k' == k) = true
    · simp [assocSet, h, assocGet, List.find?]
    · simp only [assocSet, h]
      rw [if_neg (by simp [h])]
      simp only [assocGet, List.find?, h]
      exact ih

theorem incrementCount_spec (st : ServerState) (id : String) (doc : CrateDoc)
    (h : assocGet st.crates id = some doc) :
    incrementCrateDownloadCount st id =
      { st with crates := assocSet st.crates id { doc with downloadCount := doc.downloadCount + 1 } } := by
  unfold incrementCrateDownloadCount
  rw [h]

theorem getSignedDownloadUrl_ok (st : ServerState) (id : String) (doc : CrateDoc)
    (b : BlobObject) (fn : Option String) (em : Int)
    (h : assocGet st.crates id = some doc)
    (hb : assocGet st.blobs doc.gcsPath = some b) :
    getSignedDownloadUrl st id fn em =
      .ok (signedDownloadUrl doc.gcsPath,
        logEvent (incrementCrateDownloadCount st id) "file_download" id) := by
  unfold getSignedDownloadUrl getCrateMetadata
  simp only [h, hb]

theorem getCrateContent_ok (deps : ExternalDeps) (st : ServerState) (id : String)
    (doc : CrateDoc) (b : BlobObject)
    (h : assocGet st.crates id = some doc)
    (hb : assocGet st.blobs doc.gcsPath = some b) :
    ∃ buf, getCrateContent deps st id = .ok ((buf, doc), incrementCrateDownloadCount st id) := by
  unfold getCrateContent getCrateMetadata
  simp only [h, hb]
  exact ⟨_, rfl⟩

theorem mkUuid_length (n : Nat) : (mkUuid n).length = n + 1 := by
  simp [mkUuid, String.length]

theorem signedUploadUrl_ne_empty (p : String) : signedUploadUrl p ≠ "" := by
  unfold signedUploadUrl
  intro h
  have hlen := congrArg String.length h
  rw [String.length_append] at hlen
  have h1 : ("https://storage.googleapis.com/upload/" : String).length = 38 := rfl
  have h2 : ("" : String).length = 0 := rfl
  omega

theorem mkUuid_fresh (st : ServerState) (hinv : uuidInvariant st) :
    mkUuid st.nextUuid ∉ st.issuedIds := by
  intro hmem
  have := hinv _ hmem
  rw [mkUuid_length] at this
  omega

/-! ## Concrete fixtures used by the counterexamples and witnesses -/

/-- A representative persisted crate document (complete `Crate` shape,
text-like category, owned by "alice"). -/
def baseCrateDoc : CrateDoc :=
  { id := "c", title := "T", description := none, fileName := none,
    ownerId := some "alice", createdAt := none, ttlDays := none,
    mimeType := some "text/x-thing", contentType := none,
    category := some CrateCategory.code, gcsPath := "crates/c/f",
    shared := none, tags := none, searchField := some "apple",
    size := 3, downloadCount := 0, metadata := none, embedding := none,
    expiresAt := none, fileType := none, compressed := none,
    originalSize := none, compressionMethod := none, compressionRatio := none }

/-- Dependencies whose external calls all fail (a rejected gzip promise, a
rejected gunzip, a JSON parse error, an unavailable embedding provider). -/
def failingDeps : ExternalDeps :=
  { gzip := fun _ => none, gunzip := fun _ => none, jsonReformat := fun _ => none,
    embedText := fun _ => none }

def emptyState : ServerState :=
  { crates := [], blobs := [], nextUuid := 0, issuedIds := [], now := 0, events := [] }

/-! ## C1: ownership gating of share, unshare and delete -/

def c1State : ServerState :=
  { emptyState with
    crates := [("c1", { baseCrateDoc with id := "c1", gcsPath := "crates/c1/f" })],
    blobs := [("crates/c1/f",
      { content := [1, 2, 3], contentType := "text/x-thing", metaCompressed := false })] }

def c1Args : ShareArgs :=
  { id := "c1", isPublic := some true, sharedWith := none, passwordProtected := none }

/-- C1 counterexample: the crate "c1" has the known owner "alice", yet a
caller with no resolved identity is not rejected — all three of share,
unshare and delete succeed, contradicting the claim that an anonymous
caller attempting the operation on an owned crate fails with a permission
error. -/
theorem C1_counterexample :
    (assocGet c1State.crates "c1").map (fun d => d.ownerId) = some (some "alice") ∧
    exceptOk (crates_share c1State none c1Args) = true ∧
    exceptOk (crates_unshare c1State none "c1") = true ∧
    exceptOk (crates_delete c1State none "c1") = true :=
  ⟨rfl, rfl, rfl, rfl⟩

/-- C1 (amended): for share, unshare and delete on an existing crate, a
caller whose resolved identity is present (non-empty) and differs from the
stored `ownerId` fails with the permission error; a missing metadata record
fails with "Crate not found" (for any caller, identified or anonymous).
The ownership check is skipped entirely for a caller with no resolved
identity. -/
theorem C1_ownership :
    ∀ (st : ServerState) (uid : String) (doc : CrateDoc) (a : ShareArgs) (id : String),
      (assocGet st.crates a.id = some doc → uid ≠ "" → doc.ownerId ≠ some uid →
        crates_share st (some uid) a =
          .error ("You don" ++ apos ++ "t have permission to share this crate")) ∧
      (assocGet st.crates a.id = none →
        crates_share st (some uid) a = .error "Crate not found" ∧
        crates_share st none a = .error "Crate not found") ∧
      (assocGet st.crates id = some doc → uid ≠ "" → doc.ownerId ≠ some uid →
        crates_unshare st (some uid) id =
          .error ("You don" ++ apos ++ "t have permission to unshare this crate")) ∧
      (assocGet st.crates id = none →
        crates_unshare st (some uid) id = .error "Crate not found" ∧
        crates_unshare st none id = .error "Crate not found") ∧
      (getCrateMetadata st id = some doc → uid ≠ "" → doc.ownerId ≠ some uid →
        crates_delete st (some uid) id =
          .error ("You don" ++ apos ++ "t have permission to delete this crate")) ∧
      (getCrateMetadata st id = none →
        crates_delete st (some uid) id = .error "Crate not found" ∧
        crates_delete st none id = .error "Crate not found") := by
  intro st uid doc a id
  refine ⟨?_, ?_, ?_, ?_, ?_, ?_⟩
  · intro hm h1 h2
    unfold crates_share
    simp only [hm]
    rw [if_pos (ownershipDeniedTrue uid doc.ownerId h1 h2)]
  · intro hm
    constructor <;> (unfold crates_share; simp only [hm])
  · intro hm h1 h2
    unfold crates_unshare
    simp only [hm]
    rw [if_pos (ownershipDeniedTrue uid doc.ownerId h1 h2)]
  · intro hm
    constructor <;> (unfold crates_unshare; simp only [hm])
  · intro hm h1 h2
    unfold crates_delete
    simp only [hm]
    rw [if_pos (ownershipDeniedTrue uid doc.ownerId h1 h2)]
  · intro hm
    constructor <;> (unfold crates_delete; simp only [hm])

/-- C1 witness: a present identity that differs from the owner of "c1" is
denied with the permission error. -/
theorem C1_ownership_witness :
    crates_share c1State (some "mallory") c1Args =
      .error ("You don" ++ apos ++ "t have permission to share this crate") :=
  (C1_ownership c1State "mallory" { baseCrateDoc with id := "c1", gcsPath := "crates/c1/f" }
    c1Args "c1").1 rfl (by decide) (by decide)

/-! ## C2: download-count accounting of crates_get -/

def c2State : ServerState :=
  { emptyState with
    crates := [("c2", { baseCrateDoc with id := "c2", gcsPath := "crates/c2/f" })],
    blobs := [("crates/c2/f",
      { content := [1, 2, 3], contentType := "text/x-thing", metaCompressed := false })] }

/-- The state after one successful inline `crates_get` of "c2": the counter
is incremented once by the signed-URL generation and once by the content
fetch. -/
def c2StateAfter : ServerState :=
  incrementCrateDownloadCount
    (logEvent (incrementCrateDownloadCount c2State "c2") "file_download" "c2") "c2"

/-- C2 counterexample: one successful byte-level `crates_get` of the crate
"c2" (which returns its bytes inline) moves `downloadCount` from 0 to 2,
not to 1 — the pre-signed-URL step and the content fetch each increment
once. -/
theorem C2_counterexample :
    (assocGet c2State.crates "c2").map (fun d => d.downloadCount) = some 0 ∧
    crates_get failingDeps c2State "c2" none = .ok (.inlineText [1, 2, 3], c2StateAfter) ∧
    isInlineOutcome (GetOutcome.inlineText [1, 2, 3]) = true ∧
    (assocGet c2StateAfter.crates "c2").map (fun d => d.downloadCount) = some 2 ∧
    (2 : Nat) ≠ 1 :=
  ⟨rfl, rfl, rfl, rfl, by decide⟩

/-- C2 (amended): every `crates_get` call that successfully fetches and
returns the crate's bytes (inline text or inline image) increments the
crate's `downloadCount` exactly twice: once when the pre-signed download
URL is generated and once by the byte-level fetch itself. -/
theorem C2_download_count :
    ∀ (deps : ExternalDeps) (st : ServerState) (id : String) (exp : Option Int)
      (doc : CrateDoc) (outcome : GetOutcome) (st2 : ServerState),
      assocGet st.crates id = some doc →
      doc.id = id →
      crates_get deps st id exp = .ok (outcome, st2) →
      isInlineOutcome outcome = true →
      (assocGet st2.crates id).map (·.downloadCount) = some (doc.downloadCount + 2) := by
  intro deps st id exp doc outcome st2 hm hid hok hin
  unfold crates_get getCrateMetadata at hok
  simp only [hm] at hok
  by_cases hcat : (doc.category == some CrateCategory.binary || doc.category == some CrateCategory.data) = true
  · rw [if_pos hcat] at hok
    injection hok with hok
    injection hok with ho hs
    rw [← ho] at hin
    simp [isInlineOutcome] at hin
  · rw [if_neg hcat] at hok
    rw [hid] at hok
    cases hbl : assocGet st.blobs doc.gcsPath with
    | none =>
      have herr : getSignedDownloadUrl st id (some doc.title) (ceilDiv60 (clampExpires exp)) =
          .error "Failed to generate download link" := by
        unfold getSignedDownloadUrl getCrateMetadata
        simp only [hm, hbl]
      rw [herr] at hok
      exact absurd hok (by simp)
    | some b =>
      rw [getSignedDownloadUrl_ok st id doc b (some doc.title) (ceilDiv60 (clampExpires exp)) hm hbl] at hok
      set st1 := logEvent (incrementCrateDownloadCount st id) "file_download" id with hst1
      dsimp only at hok
      have hc1 : assocGet st1.crates id = some { doc with downloadCount := doc.downloadCount + 1 } := by
        rw [hst1, incrementCount_spec st id doc hm]
        unfold logEvent
        exact assocGet_set_self _ _ _
      have hb1 : assocGet st1.blobs ({ doc with downloadCount := doc.downloadCount + 1 } : CrateDoc).gcsPath = some b := by
        rw [hst1, incrementCount_spec st id doc hm]
        unfold logEvent
        exact hbl
      obtain ⟨buf, hcc⟩ := getCrateContent_ok deps st1 id
        { doc with downloadCount := doc.downloadCount + 1 } b hc1 hb1
      have hfinal : (assocGet (incrementCrateDownloadCount st1 id).crates id).map (·.downloadCount) =
          some (doc.downloadCount + 2) := by
        rw [incrementCount_spec st1 id _ hc1]
        simp only [assocGet_set_self]
        rfl
      by_cases himg : (doc.category == some CrateCategory.image) = true
      · rw [if_pos himg] at hok
        rw [hcc] at hok
        injection hok with hok
        injection hok with ho hs
        rw [← hs]
        exact hfinal
      · rw [if_neg himg] at hok
        rw [hcc] at hok
        injection hok with hok
        injection hok with ho hs
        rw [← hs]
        exact hfinal

/-- C2 witness: the amended double-increment theorem evaluated on the
concrete state. -/
theorem C2_download_count_witness :
    (assocGet c2StateAfter.crates "c2").map (·.downloadCount) =
      some (({ baseCrateDoc with id := "c2", gcsPath := "crates/c2/f" } : CrateDoc).downloadCount + 2) :=
  C2_download_count failingDeps c2State "c2" none
    { baseCrateDoc with id := "c2", gcsPath := "crates/c2/f" }
    (GetOutcome.inlineText [1, 2, 3]) c2StateAfter rfl rfl rfl rfl
/-! ## C3: upload-path selection and the pre-signed descriptor -/

def c3Args : UploadArgs :=
  { fileName := "report.csv", contentType := "text/csv", data := none, ttlDays := none,
    title := none, description := none, category := none, tags := none, metadata := none,
    isPublic := false, password := none }

/-- C3 counterexample: a request with no category, no inline data and
declared content type "text/csv" is not of a bulk type under the claim's
definition (category binary or data, or an octet-stream/binary content
type), yet the call returns a pre-signed descriptor instead of the
"missing data" validation error — `isBigDataType` also includes
"text/csv". -/
theorem C3_counterexample :
    (c3Args.category = none ∧ c3Args.data = none ∧ c3Args.contentType = "text/csv" ∧
      jsStartsWith c3Args.contentType "application/octet-stream" = false ∧
      jsStartsWith c3Args.contentType "binary/" = false) ∧
    (crates_upload failingDeps emptyState none c3Args).map (fun r => r.1.isPresigned) = .ok true ∧
    (crates_upload failingDeps emptyState none c3Args).map (fun r => r.1.isValidationError) = .ok false :=
  ⟨⟨rfl, rfl, rfl, by decide, by decide⟩, rfl, rfl⟩

/-- C3 (amended): with the bulk-type test as the code defines it (category
binary or data, or content type "text/csv", or an octet-stream/binary
content-type family), an upload carrying no truthy inline data returns a
pre-signed descriptor with a non-empty URL and a crate id distinct from
every previously issued id (and the freshness invariant is preserved);
a non-bulk upload with no inline data returns the
"Missing data for direct upload" validation error. -/
theorem C3_upload_paths :
    ∀ (deps : ExternalDeps) (st : ServerState) (userId : Option String) (a : UploadArgs),
      uuidInvariant st →
      jsTruthyStr a.data = false →
      (if isBigDataType a.category a.contentType = true then
        ∃ url fileId path st2,
          crates_upload deps st userId a = .ok (.presigned url fileId path, st2) ∧
          url ≠ "" ∧ fileId ∉ st.issuedIds ∧ fileId ∈ st2.issuedIds ∧ uuidInvariant st2
      else
        crates_upload deps st userId a = .ok (.validationError "Missing data for direct upload", st)) := by
  intro deps st userId a hinv hdata
  by_cases hbig : isBigDataType a.category a.contentType = true
  · rw [if_pos hbig]
    refine ⟨(generateUploadUrl st (effectiveFileNameOf a.fileName a.contentType a.title a.category)
              a.contentType a.ttlDays).1.url,
            (generateUploadUrl st (effectiveFileNameOf a.fileName a.contentType a.title a.category)
              a.contentType a.ttlDays).1.fileId,
            (generateUploadUrl st (effectiveFileNameOf a.fileName a.contentType a.title a.category)
              a.contentType a.ttlDays).1.gcsPath,
            (generateUploadUrl st (effectiveFileNameOf a.fileName a.contentType a.title a.category)
              a.contentType a.ttlDays).2, ?_, ?_, ?_, ?_, ?_⟩
    · unfold crates_upload
      rw [hbig, hdata]
      rfl
    · exact signedUploadUrl_ne_empty _
    · exact mkUuid_fresh st hinv
    · exact List.mem_cons_self _ _
    · intro x hx
      have hx2 : x ∈ mkUuid st.nextUuid :: st.issuedIds := hx
      show x.length < st.nextUuid + 1 + 1
      rcases List.mem_cons.mp hx2 with h | h
      · rw [h, mkUuid_length]
        omega
      · have := hinv _ h
        omega
  · rw [if_neg hbig]
    unfold crates_upload
    rw [Bool.not_eq_true] at hbig
    rw [hbig, hdata]
    rfl

def c3WitnessArgs : UploadArgs :=
  { fileName := "a.bin", contentType := "application/x-custom", data := none, ttlDays := none,
    title := none, description := none, category := none, tags := none, metadata := none,
    isPublic := false, password := none }

/-- C3 witness: a non-bulk upload with no inline data is answered with the
validation error and an unchanged state. -/
theorem C3_upload_paths_witness :
    crates_upload failingDeps emptyState none c3WitnessArgs =
      .ok (.validationError "Missing data for direct upload", emptyState) := by
  have h := C3_upload_paths failingDeps emptyState none c3WitnessArgs (by decide) (by decide)
  rw [if_neg (by decide)] at h
  exact h

/-! ## C4: search behaviour when the embedding provider fails -/

def c4State : ServerState := { emptyState with crates := [("c", baseCrateDoc)] }

/-- C4 counterexample: with the embedding provider unavailable and a query
matching no crate's `searchField`, `crates_search` rejects with an error
instead of returning the empty sequence — the `getEmbedding` call is not
guarded, so its failure is not swallowed. -/
theorem C4_counterexample :
    crates_search failingDeps c4State "zzzz" = .error "Failed to generate embedding" ∧
    ¬ (crates_search failingDeps c4State "zzzz" = .ok ([], c4State)) :=
  ⟨rfl, fun h => Except.noConfusion h⟩

/-- C4 (amended): a failure of the embedding provider is not swallowed by
`crates_search` — the whole call fails with an error; when the embedding
succeeds, a query matching no stored `searchField` with no stored
embeddings returns the empty sequence. -/
theorem C4_search_embedding_failure :
    (∀ (deps : ExternalDeps) (st : ServerState) (q : String),
        deps.embedText q = none →
        crates_search deps st q = .error "Failed to generate embedding") ∧
    (∀ (deps : ExternalDeps) (st : ServerState) (q : String) (emb : List Int),
        deps.embedText q = some emb →
        (∀ p ∈ st.crates, p.2.embedding = none) →
        (∀ p ∈ st.crates, classicalMatch (jsToLowerCase q) p.2 = false) →
        crates_search deps st q = .ok ([], st)) := by
  constructor
  · intro deps st q h
    unfold crates_search
    rw [h]
  · intro deps st q emb h hv hc
    unfold crates_search
    rw [h]
    dsimp only
    have h1 : st.crates.filter (fun p => p.2.embedding.isSome) = [] := by
      rw [List.filter_eq_nil_iff]
      intro p hp
      simp [hv p hp]
    have h2 : st.crates.filter (fun p => classicalMatch (jsToLowerCase q) p.2) = [] := by
      rw [List.filter_eq_nil_iff]
      intro p hp
      simp [hc p hp]
    unfold findNearest
    rw [h1, h2]
    rfl

/-- C4 witness: the embedding-failure half of the amended statement at a
concrete query. -/
theorem C4_search_embedding_failure_witness :
    crates_search failingDeps emptyState "anything" = .error "Failed to generate embedding" :=
  C4_search_embedding_failure.1 failingDeps emptyState "anything" rfl
/-! ## C5: the persisted ttlDays field -/

def c5Args : UploadArgs :=
  { fileName := "note.txt", contentType := "text/plain", data := some "hello", ttlDays := some 5,
    title := some "n", description := none, category := none, tags := none, metadata := none,
    isPublic := false, password := none }

/-- C5 counterexample: an upload with the schema-valid `ttlDays` value 5
completes and both the returned crate and the persisted record carry
`ttlDays = 5`, which is not a member of the allowed-options set {1, 7, 30}
— the stored field is the raw caller value, not a normalized one. -/
theorem C5_counterexample :
    (crates_upload failingDeps emptyState (some "alice") c5Args).map
        (fun r => match r.1 with | .completed c => c.ttlDays | _ => none) = .ok (some 5) ∧
    (crates_upload failingDeps emptyState (some "alice") c5Args).map
        (fun r => (assocGet r.2.crates "u").map (fun d => d.ttlDays)) = .ok (some (some 5)) ∧
    ¬ ((5 : Int) ∈ DATA_TTL.OPTIONS) :=
  ⟨rfl, rfl, by decide⟩

/-- C5 (amended): a crate record persisted by an inline upload always has a
present `ttlDays` equal to the caller-supplied value when one was given
(any schema-valid integer in 1..365, unnormalized) and to the default 30
otherwise; the record stored under the crate's id is the returned crate. -/
theorem C5_ttl_persistence :
    ∀ (deps : ExternalDeps) (st : ServerState) (buf : List Nat) (fn ct : String)
      (pc : PartialCrate) (c : CrateDoc) (st2 : ServerState),
      (pc.ttlDays = none ∨ ∃ d, pc.ttlDays = some d ∧ 1 ≤ d ∧ d ≤ 365) →
      uploadCrate deps st buf fn ct pc = .ok (c, st2) →
      c.ttlDays = some (pc.ttlDays.getD DATA_TTL.DEFAULT_DAYS) ∧
      assocGet st2.crates c.id = some c := by
  intro deps st buf fn ct pc c st2 hval hok
  have httl : jsOrInt pc.ttlDays DATA_TTL.DEFAULT_DAYS = pc.ttlDays.getD DATA_TTL.DEFAULT_DAYS := by
    rcases hval with h | ⟨d, hd, h1, h365⟩
    · rw [h]
      rfl
    · rw [hd]
      show (if d = 0 then DATA_TTL.DEFAULT_DAYS else d) = _
      rw [if_neg (by omega)]
      rfl
  unfold uploadCrate at hok
  split at hok
  all_goals dsimp only at hok
  all_goals split at hok
  any_goals exact Except.noConfusion hok
  all_goals
    simp only [Except.ok.injEq, Prod.mk.injEq] at hok
    obtain ⟨hc, hs⟩ := hok
    subst hc
    subst hs
    refine ⟨?_, ?_⟩
  any_goals
    show some (jsOrInt pc.ttlDays DATA_TTL.DEFAULT_DAYS) = _
    rw [httl]
  all_goals
    unfold logEvent saveCrateMetadata
    exact assocGet_set_self _ _ _

def c5WitnessPartial : PartialCrate :=
  { id := none, title := some "T", description := none, ttlDays := some 7,
    ownerId := some "alice", shared := none, tags := none, metadata := none,
    category := some CrateCategory.code }

/-- The crate/state pair produced by a concrete `uploadCrate` run with
`ttlDays = 7`. -/
def c5WitnessPair : CrateDoc × ServerState :=
  match uploadCrate failingDeps emptyState [104] "f.bin" "application/x-thing" c5WitnessPartial with
  | .ok p => p
  | .error _ => (baseCrateDoc, emptyState)

/-- C5 witness: the amended persistence statement evaluated on a concrete
upload with `ttlDays = 7`. -/
theorem C5_ttl_persistence_witness :
    c5WitnessPair.1.ttlDays = some (c5WitnessPartial.ttlDays.getD DATA_TTL.DEFAULT_DAYS) ∧
    assocGet c5WitnessPair.2.crates c5WitnessPair.1.id = some c5WitnessPair.1 :=
  C5_ttl_persistence failingDeps emptyState [104] "f.bin" "application/x-thing" c5WitnessPartial
    c5WitnessPair.1 c5WitnessPair.2 (Or.inr ⟨7, rfl, by decide, by decide⟩) rfl

/-! ## C6: the TTL expiration policy -/

/-- C6: for every base timestamp and every requested ttlDays value
(including absent), the computed expiration equals
`base + d * 86400000` where `d` is the requested value when it lies in
{1, 7, 30} and does not exceed the maximum 30, and 30 otherwise; the
computation is total and normalization is idempotent. -/
theorem C6_ttl_policy :
    (∀ (base : Int) (ttl : Option Int),
        DATA_TTL.getExpirationTimestamp base ttl =
          base + (match ttl with
                  | some d => if d ∈ ([1, 7, 30] : List Int) ∧ d ≤ 30 then d else 30
                  | none => 30) * 86400000) ∧
    (∀ ttl : Option Int,
        DATA_TTL.normalizeDays (some (DATA_TTL.normalizeDays ttl)) = DATA_TTL.normalizeDays ttl) := by
  constructor
  · intro base ttl
    rw [DATA_TTL.getExpirationTimestamp, normalizeDaysSpecEq]
    norm_num
  · intro ttl
    rcases normalizeDaysMem ttl with h | h | h <;> rw [h] <;> decide

/-! ## C7: link-only rendering for the bulk categories -/

/-- C7: every `crates_get` call on a crate whose category is binary or data
returns the link-shaped instruction text, never inline bytes, and leaves
the state untouched — the bytes are not fetched and no counter moves,
whatever the stored payload is. -/
theorem C7_link_only_categories :
    ∀ (deps : ExternalDeps) (st : ServerState) (id : String) (exp : Option Int) (doc : CrateDoc),
      getCrateMetadata st id = some doc →
      (doc.category = some CrateCategory.binary ∨ doc.category = some CrateCategory.data) →
      crates_get deps st id exp =
        .ok (.linkInstructions (binaryDataMessage doc
          (match doc.category with | some c => c | none => CrateCategory.binary)), st) ∧
      isInlineOutcome (GetOutcome.linkInstructions (binaryDataMessage doc
          (match doc.category with | some c => c | none => CrateCategory.binary))) = false := by
  intro deps st id exp doc hmeta hcat
  refine ⟨?_, rfl⟩
  unfold crates_get
  rw [hmeta]
  have hcond : (doc.category == some CrateCategory.binary || doc.category == some CrateCategory.data) = true := by
    rcases hcat with h | h <;> rw [h] <;> rfl
  simp only [hcond, if_true]

def c7State : ServerState :=
  { emptyState with
    crates := [("b1", { baseCrateDoc with id := "b1", category := some CrateCategory.binary })],
    blobs := [("crates/c/f",
      { content := [9, 9], contentType := "application/octet-stream", metaCompressed := false })] }

/-- C7 witness: a binary crate with a tiny stored payload still renders as
the instruction text with the state unchanged. -/
theorem C7_link_only_categories_witness :
    crates_get failingDeps c7State "b1" none =
      .ok (.linkInstructions (binaryDataMessage
        { baseCrateDoc with id := "b1", category := some CrateCategory.binary }
        CrateCategory.binary), c7State) ∧
    isInlineOutcome (GetOutcome.linkInstructions (binaryDataMessage
        { baseCrateDoc with id := "b1", category := some CrateCategory.binary }
        CrateCategory.binary)) = false :=
  C7_link_only_categories failingDeps c7State "b1" none
    { baseCrateDoc with id := "b1", category := some CrateCategory.binary }
    rfl (Or.inl rfl)
/-! ## C8: compression accounting of persisted records -/

/-- Modelled from the spec: the gzip compressor itself (Node zlib) is an
external collaborator of this repository.  The spec fixes only the stream
shape — a deflate-family encoding whose output "never exceeds a tiny fixed
overhead" over incompressible input — and the gzip format prescribes a
10-byte header and an 8-byte CRC32/ISIZE trailer around the deflate
payload.  This model emits the input as one stored deflate block (5-byte
block header, valid for inputs under 65536 bytes) between the fixed header
and a zeroed trailer, a well-formed gzip stream of length input + 23.
Only lengths matter to the claim; real zlib emits 20 bytes for the empty
input and, like every gzip stream, never fewer than the 18 header/trailer
bytes — which is the fact the counterexample exploits. -/
def gzipByteStream (b : List Nat) : List Nat :=
  [31, 139, 8, 0, 0, 0, 0, 0, 0, 3] ++
    [1, b.length % 256, b.length / 256 % 256, 255 - b.length % 256, 255 - b.length / 256 % 256] ++
    b ++ List.replicate 8 0

/-- Dependencies whose gzip is the stored-block model above. -/
def gzipModelDeps : ExternalDeps :=
  { gzip := fun b => some (gzipByteStream b), gunzip := fun _ => none,
    jsonReformat := fun _ => none, embedText := fun _ => none }

/-- The record persisted for an empty compressible file. -/
def c8Record : CrateDoc :=
  (uploadFile gzipModelDeps emptyState [] "notes.txt" "text/plain" none none none none none).1

/-- C8 counterexample: uploading the empty buffer as a compressible
"text/plain" file persists `compressed = true` with `originalSize = 0` but
`size = 23` (the gzip stream overhead), so the claimed invariant
`originalSize ≥ size` fails. -/
theorem C8_counterexample :
    c8Record.compressed = some true ∧
    c8Record.originalSize = some 0 ∧
    c8Record.size = 23 ∧
    ¬ ((0 : Nat) ≥ 23) :=
  ⟨rfl, rfl, rfl, by decide⟩

/-- C8 (amended): whenever the compression policy fires and gzip succeeds,
the persisted record carries `compressed = true`, `originalSize` equal to
the pre-compression byte length, `size` equal to the gzip output length —
which may exceed `originalSize`, because gzip adds fixed header and
trailer overhead — and `compressionRatio` equal to
`(1 - size / originalSize) * 100` when `originalSize > 0` and `0` when
`originalSize = 0`. -/
theorem C8_compression_accounting :
    ∀ (deps : ExternalDeps) (st : ServerState) (buf : List Nat) (fn ct : String)
      (ttl : Option Int) (ti de ft : Option String) (md : Option (List (String × String)))
      (out : List Nat),
      deps.gzip buf = some out →
      shouldCompress ct fn = true →
      ((uploadFile deps st buf fn ct ttl ti de ft md).1.compressed = some true ∧
       (uploadFile deps st buf fn ct ttl ti de ft md).1.originalSize = some buf.length ∧
       (uploadFile deps st buf fn ct ttl ti de ft md).1.size = out.length ∧
       (uploadFile deps st buf fn ct ttl ti de ft md).1.compressionRatio =
         some (if buf.length > 0 then (1 - (out.length : ℚ) / (buf.length : ℚ)) * 100 else 0)) := by
  intro deps st buf fn ct ttl ti de ft md out hgz hsc
  have hcb : compressBuffer deps.gzip buf =
      some (out,
        { originalSize := buf.length
          compressedSize := out.length
          compressionRatio :=
            if buf.length > 0 then (1 - (out.length : ℚ) / (buf.length : ℚ)) * 100 else 0
          compressionMethod := "gzip" }) := by
    unfold compressBuffer
    rw [hgz]
    rfl
  unfold uploadFile
  rw [hsc]
  simp only [if_pos rfl, hcb]
  exact ⟨rfl, rfl, rfl, rfl⟩

/-- C8 witness: the accounting fields of a concrete three-byte upload under
the modelled gzip. -/
theorem C8_compression_accounting_witness :
    ((uploadFile gzipModelDeps emptyState [1, 2, 3] "notes.txt" "text/plain"
        none none none none none).1.compressed = some true ∧
     (uploadFile gzipModelDeps emptyState [1, 2, 3] "notes.txt" "text/plain"
        none none none none none).1.originalSize = some ([1, 2, 3] : List Nat).length ∧
     (uploadFile gzipModelDeps emptyState [1, 2, 3] "notes.txt" "text/plain"
        none none none none none).1.size = (gzipByteStream [1, 2, 3]).length ∧
     (uploadFile gzipModelDeps emptyState [1, 2, 3] "notes.txt" "text/plain"
        none none none none none).1.compressionRatio =
       some (if ([1, 2, 3] : List Nat).length > 0 then
         (1 - ((gzipByteStream [1, 2, 3]).length : ℚ) / (([1, 2, 3] : List Nat).length : ℚ)) * 100
       else 0)) :=
  C8_compression_accounting gzipModelDeps emptyState [1, 2, 3] "notes.txt" "text/plain"
    none none none none none (gzipByteStream [1, 2, 3]) rfl (by decide)

/-! ## C9: the content classifier -/

/-- C9: classification returns the caller's explicit category when one is
supplied; otherwise the MIME-table entry when listed; otherwise the
extension-table entry keyed by the lower-cased substring from the last dot
of the file name when listed; otherwise binary — and the tables map every
documented entry as stated. -/
theorem C9_classifier :
    (∀ (fn mt : String) (c : CrateCategory), classify fn mt (some c) = c) ∧
    (∀ fn mt : String,
        tableLookup MIME_TYPE_TO_CATEGORY mt = none →
        tableLookup EXTENSION_TO_CATEGORY (fileExtensionExpr fn) = none →
        classify fn mt none = CrateCategory.binary) ∧
    (classify "f.png" "" none = CrateCategory.image ∧
     classify "f.JPG" "" none = CrateCategory.image ∧
     classify "f.jpeg" "" none = CrateCategory.image ∧
     classify "f.gif" "" none = CrateCategory.image ∧
     classify "f.webp" "" none = CrateCategory.image ∧
     classify "f.svg" "" none = CrateCategory.image ∧
     classify "f.md" "" none = CrateCategory.markdown ∧
     classify "f.markdown" "" none = CrateCategory.markdown ∧
     classify "f.json" "" none = CrateCategory.json ∧
     classify "f.csv" "" none = CrateCategory.data ∧
     classify "f.js" "" none = CrateCategory.code ∧
     classify "f.ts" "" none = CrateCategory.code ∧
     classify "f.html" "" none = CrateCategory.code ∧
     classify "f.css" "" none = CrateCategory.code ∧
     classify "f.py" "" none = CrateCategory.code ∧
     classify "f.java" "" none = CrateCategory.code ∧
     classify "f.xml" "" none = CrateCategory.code ∧
     classify "f.txt" "" none = CrateCategory.code ∧
     classify "f.log" "" none = CrateCategory.code ∧
     classify "f.todolist" "" none = CrateCategory.todolist ∧
     classify "f.mmd" "" none = CrateCategory.diagram ∧
     classify "f.diagram" "" none = CrateCategory.diagram) ∧
    (classify "f" "image/png" none = CrateCategory.image ∧
     classify "f" "image/jpeg" none = CrateCategory.image ∧
     classify "f" "image/gif" none = CrateCategory.image ∧
     classify "f" "image/webp" none = CrateCategory.image ∧
     classify "f" "image/svg+xml" none = CrateCategory.image ∧
     classify "f" "text/markdown" none = CrateCategory.markdown ∧
     classify "f" "application/json" none = CrateCategory.json ∧
     classify "f" "text/csv" none = CrateCategory.data) := by
  refine ⟨fun fn mt c => rfl, fun fn mt h1 h2 => ?_, by decide, by decide⟩
  unfold classify getDefaultCategoryForFile
  rw [h1]
  simp only [ite_self]
  rw [h2]
  simp only [ite_self]

/-- C9 witness: an unlisted MIME type together with an unlisted extension
classifies as binary. -/
theorem C9_classifier_witness :
    tableLookup MIME_TYPE_TO_CATEGORY "application/x-custom" = none ∧
    tableLookup EXTENSION_TO_CATEGORY (fileExtensionExpr "archive.xyz") = none ∧
    classify "archive.xyz" "application/x-custom" none = CrateCategory.binary :=
  ⟨by decide, by decide,
    C9_classifier.2.1 "archive.xyz" "application/x-custom" (by decide) (by decide)⟩

/-! ## C10: shouldCompress on dot-free file names -/

/-- C10: for a file name containing no dot, the extension expression of
`shouldCompress` degenerates to the entire lower-cased file name compared
against the dot-prefixed extension allow-list, so such a file is
compressed exactly when its declared content type matches the
compressible-type list or the whole lower-cased name is literally a list
entry; the function is total on all string inputs. -/
theorem C10_dotless_compression :
    ∀ (fileName contentType : String), '.' ∉ fileName.data →
      (shouldCompress contentType fileName = true ↔
        ((∃ t ∈ COMPRESSIBLE_CONTENT_TYPES, jsIncludes contentType t = true) ∨
          jsToLowerCase fileName ∈ COMPRESSIBLE_EXTENSIONS)) := by
  intro fileName contentType h
  unfold shouldCompress
  rw [shouldCompressExtNoDot fileName h]
  by_cases hany : COMPRESSIBLE_CONTENT_TYPES.any (fun t => jsIncludes contentType t) = true
  · rw [if_pos hany]
    simp only [List.any_eq_true] at hany
    simp [hany]
  · rw [if_neg hany]
    simp only [List.any_eq_true] at hany
    constructor
    · intro hc
      right
      exact List.elem_iff.mp hc
    · intro hor
      rcases hor with hex | hm
      · exact absurd hex hany
      · exact List.elem_iff.mpr hm

/-- C10 witness: the dot-free name "Makefile" with content type
"text/plain" is compressed via the content-type signal alone. -/
theorem C10_dotless_compression_witness :
    ('.' ∉ ("Makefile" : String).data) ∧
    (shouldCompress "text/plain" "Makefile" = true ↔
      ((∃ t ∈ COMPRESSIBLE_CONTENT_TYPES, jsIncludes "text/plain" t = true) ∨
        jsToLowerCase "Makefile" ∈ COMPRESSIBLE_EXTENSIONS)) :=
  ⟨by decide, C10_dotless_compression "Makefile" "text/plain" (by decide)⟩

end MCPH
